import Mathlib

/-!
# LeadOwl Reddit Monitor — verification development

A shallow embedding of the core logic of the LeadOwl Reddit monitor
(rate limiter, retrying executor, search aggregation, deduplication,
keyword matching, intent filter, client configuration), together with
theorems settling the specification's claims about it.

Numeric quantities that are JavaScript numbers (token counts, delays,
timestamps) are modelled as rationals; attempt counters as naturals.
-/

/-! ## Rate limiter configuration (`types.ts` / `rate-limiter.ts`) -/

/-- Rate limiter configuration, from `RateLimitConfig` in `types.ts`. -/
structure RateLimitConfig where
  requestsPerMinute : ℚ
  burstLimit : ℚ
  backoffMultiplier : ℚ
  maxBackoffMs : ℚ
  maxRetries : ℕ
deriving DecidableEq, Repr

/-- `DEFAULT_RATE_LIMIT_CONFIG` from `rate-limiter.ts`: 30 req/min,
burst 10, multiplier 2, max backoff 5 minutes, max 3 retries. -/
def DEFAULT_RATE_LIMIT_CONFIG : RateLimitConfig :=
  { requestsPerMinute := 30
    burstLimit := 10
    backoffMultiplier := 2
    maxBackoffMs := 5 * 60 * 1000
    maxRetries := 3 }

/-! ## Token bucket state and operations (`RateLimiter` class) -/

/-- The mutable fields of the `RateLimiter` class: current token count and
the timestamp (ms) of the last refill. -/
structure LimiterState where
  tokens : ℚ
  lastRefill : ℚ
deriving DecidableEq, Repr

/-- The constructor of `RateLimiter`: `tokens = config.burstLimit`,
`lastRefill = Date.now()` (the creation timestamp `t0`). -/
def initLimiter (cfg : RateLimitConfig) (t0 : ℚ) : LimiterState :=
  { tokens := cfg.burstLimit, lastRefill := t0 }

/-- `RateLimiter.refillTokens`, with `Date.now()` passed explicitly as `now`:
adds `elapsedMinutes * requestsPerMinute` tokens, capped at `burstLimit`,
and resets `lastRefill`. -/
def refillTokens (cfg : RateLimitConfig) (s : LimiterState) (now : ℚ) : LimiterState :=
  let elapsedMs := now - s.lastRefill
  let elapsedMinutes := elapsedMs / 60000
  let newTokens := elapsedMinutes * cfg.requestsPerMinute
  { tokens := min cfg.burstLimit (s.tokens + newTokens), lastRefill := now }

/-- The wait computed on the slow path of `waitForToken`:
`Math.ceil((1 - tokens) / requestsPerMinute * 60000)`, evaluated on the
state after the first refill. -/
def msToWait (cfg : RateLimitConfig) (tokens : ℚ) : ℤ :=
  ⌈(1 - tokens) / cfg.requestsPerMinute * 60000⌉

/-- `RateLimiter.waitForToken`, with the two `Date.now()` readings passed
explicitly: `now1` at the initial refill and `now2` at the refill after the
sleep.  Fast path: a token is available and is consumed.  Slow path: sleep
for `msToWait`, refill at `now2`, consume. -/
def waitForToken (cfg : RateLimitConfig) (s : LimiterState) (now1 now2 : ℚ) :
    LimiterState :=
  let s1 := refillTokens cfg s now1
  if 1 ≤ s1.tokens then
    { s1 with tokens := s1.tokens - 1 }
  else
    let s2 := refillTokens cfg s1 now2
    { s2 with tokens := s2.tokens - 1 }

/-- The state effect of `RateLimiter.handleRateLimitResponse`: the token
count is reset to 0 (the sleep does not touch the state fields). -/
def handleRateLimitResponse (s : LimiterState) : LimiterState :=
  { s with tokens := 0 }

/-- The wait performed by `handleRateLimitResponse`: `retryAfterSeconds * 1000`
when a hint is present and truthy (the JavaScript conditional treats an
absent hint and a hint of 0 alike as falsy), else `maxBackoffMs`. -/
def handleRateLimitWaitMs (cfg : RateLimitConfig) (retryAfterSeconds : Option ℚ) : ℚ :=
  match retryAfterSeconds with
  | some r => if r = 0 then cfg.maxBackoffMs else r * 1000
  | none => cfg.maxBackoffMs

/-- The state effect of `RateLimiter.getStatus`: it refills and reads. -/
def getStatusState (cfg : RateLimitConfig) (s : LimiterState) (now : ℚ) : LimiterState :=
  refillTokens cfg s now

/-- The value returned by `RateLimiter.getStatus`: floored token count and
the configured rate. -/
def getStatus (cfg : RateLimitConfig) (s : LimiterState) (now : ℚ) : ℤ × ℚ :=
  (⌊(refillTokens cfg s now).tokens⌋, cfg.requestsPerMinute)

/-- `RateLimiter.getBackoffDelay`:
`min(1000 * backoffMultiplier ^ attempt, maxBackoffMs)`. -/
def getBackoffDelay (cfg : RateLimitConfig) (attempt : ℕ) : ℚ :=
  let baseDelay : ℚ := 1000
  let delay := baseDelay * cfg.backoffMultiplier ^ attempt
  min delay cfg.maxBackoffMs

/-- `RateLimiter.shouldRetry`: `attempt < maxRetries`. -/
def shouldRetry (cfg : RateLimitConfig) (attempt : ℕ) : Bool :=
  attempt < cfg.maxRetries

/-! ## Observation traces over the limiter

A run of the limiter is a list of operations, each carrying the `Date.now()`
readings it makes.  `opsWF` records the facts the runtime guarantees: clock
readings never precede `lastRefill` (time is monotone), and a sleep of
`msToWait` milliseconds wakes no earlier than requested. -/

/-- One observable operation on the `RateLimiter`, with its clock readings. -/
inductive LimiterOp where
  | wait (now1 now2 : ℚ)
  | throttle
  | status (now : ℚ)
  | refill (now : ℚ)
deriving DecidableEq, Repr

/-- Apply one operation to the limiter state. -/
def applyOp (cfg : RateLimitConfig) (s : LimiterState) : LimiterOp → LimiterState
  | .wait now1 now2 => waitForToken cfg s now1 now2
  | .throttle => handleRateLimitResponse s
  | .status now => getStatusState cfg s now
  | .refill now => refillTokens cfg s now

/-- Run a list of operations from a state. -/
def runOps (cfg : RateLimitConfig) (s : LimiterState) : List LimiterOp → LimiterState
  | [] => s
  | op :: rest => runOps cfg (applyOp cfg s op) rest

/-- Well-formedness of one operation at a state: its clock readings are at
least `lastRefill`, and on the slow path of `waitForToken` the second
reading is at least `msToWait` after the first (sleeps never wake early). -/
def opWF (cfg : RateLimitConfig) (s : LimiterState) : LimiterOp → Bool
  | .wait now1 now2 =>
      let s1 := refillTokens cfg s now1
      decide (s.lastRefill ≤ now1) &&
        (if 1 ≤ s1.tokens then true
         else decide (now1 + (msToWait cfg s1.tokens : ℚ) ≤ now2))
  | .throttle => true
  | .status now => decide (s.lastRefill ≤ now)
  | .refill now => decide (s.lastRefill ≤ now)

/-- Well-formedness of a whole operation list from a state. -/
def opsWF (cfg : RateLimitConfig) (s : LimiterState) : List LimiterOp → Bool
  | [] => true
  | op :: rest => opWF cfg s op && opsWF cfg (applyOp cfg s op) rest

/-! ## The retrying executor `withRateLimit` (`rate-limiter.ts`)

Each call to the wrapped task either succeeds, throws a `RateLimitError`
(carrying an optional retry-after hint), or throws some other error.  The
behaviour of the task across calls is modelled as a function from the
attempt index to its outcome.  Waits (token acquisition, throttling waits,
backoff sleeps) do not influence the executor's control flow, so the run is
summarised by its result together with a record of the limiter interactions
performed. -/

/-- Outcome of one call of the wrapped task. -/
inductive Outcome (T : Type) where
  | success (t : T)
  | throttled (msg : String) (retryAfter : Option ℚ)
  | failure (msg : String)

/-- Summary of a `withRateLimit` run: the final result, the number of calls
made to the task, the retry-after hints passed to
`handleRateLimitResponse` (in order), and the backoff sleeps performed
(attempt index and delay, in order). -/
structure RunTrace (T : Type) where
  result : Except String T
  attempts : ℕ
  throttleWaits : List (Option ℚ)
  backoffs : List (ℕ × ℚ)
deriving Repr

/-- The loop body of `withRateLimit`, by recursion on the remaining loop
iterations.  The loop bound is the module-level
`DEFAULT_RATE_LIMIT_CONFIG.maxRetries`; the per-attempt retry decision is
`limiter.shouldRetry`, which reads the limiter's own configuration
`cfg`. -/
def withRateLimitGo (cfg : RateLimitConfig) {T : Type} (results : ℕ → Outcome T)
    (lastError : Option String) (attempt : ℕ) : (fuel : ℕ) → RunTrace T
  | 0 => ⟨.error (lastError.getD "Max retries exceeded"), 0, [], []⟩
  | fuel + 1 =>
    match results attempt with
    | .success t => ⟨.ok t, 1, [], []⟩
    | .throttled msg ra =>
        let rest := withRateLimitGo cfg results (some msg) (attempt + 1) fuel
        ⟨rest.result, rest.attempts + 1, ra :: rest.throttleWaits, rest.backoffs⟩
    | .failure msg =>
        if shouldRetry cfg attempt then
          let rest := withRateLimitGo cfg results (some msg) (attempt + 1) fuel
          ⟨rest.result, rest.attempts + 1, rest.throttleWaits,
            (attempt, getBackoffDelay cfg attempt) :: rest.backoffs⟩
        else ⟨.error msg, 1, [], []⟩

/-- `withRateLimit(limiter, fn)`: the `for` loop runs `attempt` from 0 while
`attempt <= DEFAULT_RATE_LIMIT_CONFIG.maxRetries`, i.e. for at most
`DEFAULT_RATE_LIMIT_CONFIG.maxRetries + 1` iterations, regardless of the
limiter's own `maxRetries`. -/
def withRateLimit (cfg : RateLimitConfig) {T : Type} (results : ℕ → Outcome T) :
    RunTrace T :=
  withRateLimitGo cfg results none 0 (DEFAULT_RATE_LIMIT_CONFIG.maxRetries + 1)

/-! ## Posts, search aggregation (`types.ts`, `reddit-client.ts`) -/

/-- `RedditPost` from `types.ts`. -/
structure RedditPost where
  id : String
  subreddit : String
  title : String
  content : String
  author : String
  url : String
  createdUtc : ℚ
  score : ℤ
  numComments : ℕ
deriving DecidableEq, Repr

/-- The fields of one search-result child (`RedditSearchResponse` in
`types.ts`). -/
structure RawPostData where
  id : String
  subreddit : String
  title : String
  selftext : String
  author : String
  permalink : String
  created_utc : ℚ
  score : ℤ
  num_comments : ℕ
deriving DecidableEq, Repr

/-- `RedditClient.transformPost`: extracts the public fields and builds the
full URL from the permalink.  (`data.selftext || ''` is the identity on
strings, since the falsy string is already `""`.) -/
def transformPost (d : RawPostData) : RedditPost :=
  { id := d.id
    subreddit := d.subreddit
    title := d.title
    content := d.selftext
    author := d.author
    url := "https://reddit.com" ++ d.permalink
    createdUtc := d.created_utc
    score := d.score
    numComments := d.num_comments }

/-- The loop of `RedditClient.search`, accumulating into `allPosts`: each
channel's request either yields the children of a search response or
throws; a throw is caught, logged, and the loop continues. -/
def searchGo (fetch : String → Except String (List RawPostData)) :
    List RedditPost → List String → List RedditPost
  | allPosts, [] => allPosts
  | allPosts, sr :: rest =>
      match fetch sr with
      | .ok children => searchGo fetch (allPosts ++ children.map transformPost) rest
      | .error _ => searchGo fetch allPosts rest

/-- `RedditClient.search(query, subreddits, options)`, with the outcome of
the per-channel request (issued through the authenticated, rate-limited
transport) abstracted as `fetch`. -/
def search (fetch : String → Except String (List RawPostData))
    (subreddits : List String) : List RedditPost :=
  searchGo fetch [] subreddits

/-! ## Collector: keywords, dedup, matching, intent (`collector.ts`) -/

/-- `StoredLead` from `types.ts` (timestamps as rationals; `source` is the
literal type `'reddit'`, kept as a string). -/
structure StoredLead where
  id : String
  source : String
  sourceId : String
  sourceUrl : String
  title : String
  content : String
  author : String
  authorUrl : String
  matchedKeywords : List String
  collectedAt : ℚ
  sourceCreatedAt : ℚ
deriving DecidableEq, Repr

/-- `PRODUCT_KEYWORDS` from `collector.ts`, in object-literal order. -/
def PRODUCT_KEYWORDS : List (String × List String) :=
  [ ("snapforge",
      ["screenshot api", "screenshot service", "webpage capture",
       "url to image", "website screenshot", "html to image",
       "puppeteer screenshot", "playwright screenshot"]),
    ("octa",
      ["mac calculator", "calculator app mac", "developer calculator",
       "programmer calculator", "scientific calculator mac",
       "hex calculator", "binary calculator"]),
    ("watchowl",
      ["visual monitoring", "website change detection", "visual regression",
       "page change alert", "website diff"]),
    ("docforge",
      ["pdf api", "html to pdf", "pdf generation",
       "document generation api", "invoice pdf api"]) ]

/-- `INTENT_KEYWORDS` from `collector.ts`. -/
def INTENT_KEYWORDS : List String :=
  ["looking for", "recommend", "alternative to", "best tool for",
   "anyone know", "need a", "searching for"]

/-- JavaScript `String.prototype.toLowerCase` on the ASCII texts involved,
as a character list. -/
def jsLower (s : String) : List Char :=
  s.toList.map Char.toLower

/-- JavaScript `haystack.includes(needle)`: `needle` occurs as a contiguous
substring of `haystack`. -/
def strIncludes (hay needle : List Char) : Bool :=
  hay.tails.any (fun t => needle.isPrefixOf t)

/-- Filtering a list down to the first occurrence per key, carrying the set
of keys already `seen` — the common shape of `deduplicatePosts` (a
`filter` over a growing `Set` of seen ids) and of the `[...new Set(xs)]`
spread (JavaScript sets preserve first-insertion order). -/
def keepFirstByKey {α κ : Type} [DecidableEq κ] (key : α → κ) (seen : List κ) :
    List α → List α
  | [] => []
  | x :: rest =>
      if key x ∈ seen then keepFirstByKey key seen rest
      else x :: keepFirstByKey key (key x :: seen) rest

/-- `RedditCollector.deduplicatePosts`: `posts.filter` with a `seen` set of
ids, keeping a post exactly when its id was not seen before. -/
def deduplicatePosts (posts : List RedditPost) : List RedditPost :=
  keepFirstByKey (fun p => p.id) [] posts

/-- `RedditCollector.findMatchedKeywords`: lower-cased title+body text,
nested loop over every product's keywords pushing the ones included in the
text, then `[...new Set(matched)]`. -/
def findMatchedKeywords (post : RedditPost) : List String :=
  let text := jsLower (post.title ++ " " ++ post.content)
  let matched := PRODUCT_KEYWORDS.flatMap
    (fun pk => pk.2.filter (fun keyword => strIncludes text (jsLower keyword)))
  keepFirstByKey (fun k => k) [] matched

/-- The flattened keyword taxonomy, `Object.values(PRODUCT_KEYWORDS)` in
object order. -/
def allProductKeywords : List String :=
  PRODUCT_KEYWORDS.flatMap (fun pk => pk.2)

/-- `RedditCollector.hasGenuineIntent`: intent keyword or question
indicator, and a minimum-substance check. -/
def hasGenuineIntent (lead : StoredLead) : Bool :=
  let text := jsLower (lead.title ++ " " ++ lead.content)
  let hasIntentKeyword :=
    INTENT_KEYWORDS.any (fun keyword => strIncludes text keyword.toList)
  let isQuestion :=
    strIncludes text ['?'] ||
    "how".toList.isPrefixOf text ||
    "what".toList.isPrefixOf text ||
    "which".toList.isPrefixOf text ||
    "any".toList.isPrefixOf text
  let hasSubstance := lead.content.length > 50 || lead.title.length > 30
  (hasIntentKeyword || isQuestion) && hasSubstance

/-! ## Client construction from the environment (`reddit-client.ts`) -/

/-- `RedditClientConfig` from `reddit-client.ts`. -/
structure RedditClientConfig where
  clientId : String
  clientSecret : String
  userAgent : String
deriving DecidableEq, Repr

/-- The environment variables read by `createRedditClient`. -/
structure RedditEnv where
  REDDIT_CLIENT_ID : Option String
  REDDIT_CLIENT_SECRET : Option String
  REDDIT_USER_AGENT : Option String
deriving DecidableEq, Repr

/-- JavaScript falsiness of an optional string: absent or empty. -/
def jsFalsy : Option String → Bool
  | none => true
  | some s => s.isEmpty

/-- `createRedditClient`: the user agent falls back to a built-in default;
a falsy client id or client secret throws a configuration error. -/
def createRedditClient (env : RedditEnv) : Except String RedditClientConfig :=
  let clientId := env.REDDIT_CLIENT_ID
  let clientSecret := env.REDDIT_CLIENT_SECRET
  let userAgent :=
    match env.REDDIT_USER_AGENT with
    | some ua => if ua.isEmpty then "LeadOwl/1.0.0 (https://leadowl.techyowls.io)" else ua
    | none => "LeadOwl/1.0.0 (https://leadowl.techyowls.io)"
  if jsFalsy clientId || jsFalsy clientSecret then
    .error "Missing REDDIT_CLIENT_ID or REDDIT_CLIENT_SECRET environment variables"
  else
    .ok { clientId := clientId.getD ""
          clientSecret := clientSecret.getD ""
          userAgent := userAgent }

/-! ## Spec-side definitions

These follow the specification's words, for comparison with the
definitions embedded from the source. -/

/-- The default user agent string built into `createRedditClient`. -/
def DEFAULT_USER_AGENT : String := "LeadOwl/1.0.0 (https://leadowl.techyowls.io)"

/-- JavaScript `String.prototype.trim`: strip leading and trailing
whitespace. -/
def jsTrim (cs : List Char) : List Char :=
  ((cs.dropWhile Char.isWhitespace).reverse.dropWhile Char.isWhitespace).reverse

/-- The question-opening words of the spec's `looksLikeQuestion`. -/
def QUESTION_STARTS : List String := ["how", "what", "which", "any"]

/-- Spec-side `hasIntentKeyword`: case-insensitive substring match of the
fixed intent-phrase set against the text. -/
def spec_hasIntentKeyword (text : List Char) : Bool :=
  INTENT_KEYWORDS.any (fun keyword => strIncludes text (jsLower keyword))

/-- `looksLikeQuestion` as the specification states it: the text contains
`?`, or, AFTER TRIMMING, starts with one of {"how","what","which","any"}
case-insensitively (the text passed in is already lower-cased). -/
def spec_looksLikeQuestion (text : List Char) : Bool :=
  strIncludes text ['?'] ||
    QUESTION_STARTS.any (fun w => w.toList.isPrefixOf (jsTrim text))

/-- `looksLikeQuestion` as the source implements it: no trimming before the
starts-with tests. -/
def amended_looksLikeQuestion (text : List Char) : Bool :=
  strIncludes text ['?'] ||
    QUESTION_STARTS.any (fun w => w.toList.isPrefixOf text)

/-- Spec-side `hasSubstance`: content length > 50 or title length > 30. -/
def spec_hasSubstance (lead : StoredLead) : Bool :=
  lead.content.length > 50 || lead.title.length > 30

/-- `hasGenuineIntent` as the specification's claim states it, with
trimming inside `looksLikeQuestion`. -/
def spec_hasGenuineIntent (lead : StoredLead) : Bool :=
  let text := jsLower (lead.title ++ " " ++ lead.content)
  (spec_hasIntentKeyword text || spec_looksLikeQuestion text) && spec_hasSubstance lead

/-- `hasGenuineIntent` as amended: identical except that the text is not
trimmed before the starts-with tests. -/
def amended_hasGenuineIntent (lead : StoredLead) : Bool :=
  let text := jsLower (lead.title ++ " " ++ lead.content)
  (spec_hasIntentKeyword text || amended_looksLikeQuestion text) && spec_hasSubstance lead

/-- The spec-side reading of `deduplicate`: fold left, appending a post
exactly when its id has not been produced yet (first occurrence per id, in
input order). -/
def firstOccurrences (posts : List RedditPost) : List RedditPost :=
  posts.foldl
    (fun acc p => if p.id ∈ acc.map (fun q => q.id) then acc else acc ++ [p]) []

/-- The spec-side reading of a `search` run: the concatenation, in input
channel order, of the decoded posts of the channels whose fetch
succeeded. -/
def spec_searchResult (fetch : String → Except String (List RawPostData))
    (subreddits : List String) : List RedditPost :=
  subreddits.flatMap (fun sr =>
    match fetch sr with
    | .ok children => children.map transformPost
    | .error _ => [])

/-! ## Helper lemmas -/

theorem keepFirstByKey_sublist {α κ : Type} [DecidableEq κ] (key : α → κ) :
    ∀ (l : List α) (seen : List κ), (keepFirstByKey key seen l).Sublist l
  | [], _ => List.Sublist.refl []
  | x :: rest, seen => by
      unfold keepFirstByKey
      by_cases h : key x ∈ seen
      · simp only [if_pos h]
        exact (keepFirstByKey_sublist key rest seen).cons x
      · simp only [if_neg h]
        exact (keepFirstByKey_sublist key rest (key x :: seen)).cons₂ x

theorem keepFirstByKey_nodup {α κ : Type} [DecidableEq κ] (key : α → κ) :
    ∀ (l : List α) (seen : List κ),
      ((keepFirstByKey key seen l).map key).Nodup ∧
        ∀ k ∈ (keepFirstByKey key seen l).map key, k ∉ seen
  | [], seen => by simp [keepFirstByKey]
  | x :: rest, seen => by
      unfold keepFirstByKey
      by_cases h : key x ∈ seen
      · simpa [if_pos h] using keepFirstByKey_nodup key rest seen
      · obtain ⟨hnd, hni⟩ := keepFirstByKey_nodup key rest (key x :: seen)
        refine ⟨?_, ?_⟩
        · simp only [if_neg h, List.map_cons, List.nodup_cons]
          exact ⟨fun hmem => (hni _ hmem) (List.mem_cons_self _ _), hnd⟩
        · simp only [if_neg h, List.map_cons, List.mem_cons]
          rintro k (rfl | hk)
          · exact h
          · exact fun hks => (hni k hk) (List.mem_cons_of_mem _ hks)

theorem keepFirstByKey_covers {α κ : Type} [DecidableEq κ] (key : α → κ) :
    ∀ (l : List α) (seen : List κ) (x : α), x ∈ l →
      key x ∈ seen ∨ key x ∈ (keepFirstByKey key seen l).map key
  | [], _, x, hx => absurd hx (List.not_mem_nil x)
  | y :: rest, seen, x, hx => by
      unfold keepFirstByKey
      by_cases h : key y ∈ seen
      · simp only [if_pos h]
        rcases List.mem_cons.mp hx with rfl | hx
        · exact Or.inl h
        · exact keepFirstByKey_covers key rest seen x hx
      · simp only [if_neg h, List.map_cons, List.mem_cons]
        rcases List.mem_cons.mp hx with rfl | hx
        · exact Or.inr (Or.inl rfl)
        · rcases keepFirstByKey_covers key rest (key y :: seen) x hx with hs | hm
          · rcases List.mem_cons.mp hs with he | hs
            · exact Or.inr (Or.inl he)
            · exact Or.inl hs
          · exact Or.inr (Or.inr hm)

theorem keepFirstByKey_foldl {α κ : Type} [DecidableEq κ] (key : α → κ) :
    ∀ (l : List α) (seen : List κ) (acc : List α),
      (∀ k, k ∈ seen ↔ k ∈ acc.map key) →
      acc ++ keepFirstByKey key seen l =
        l.foldl (fun acc x => if key x ∈ acc.map key then acc else acc ++ [x]) acc
  | [], seen, acc, _ => by simp [keepFirstByKey]
  | x :: rest, seen, acc, hiff => by
      unfold keepFirstByKey
      rw [List.foldl_cons]
      by_cases h : key x ∈ seen
      · rw [if_pos h, if_pos ((hiff (key x)).mp h)]
        exact keepFirstByKey_foldl key rest seen acc hiff
      · rw [if_neg h, if_neg (fun hm => h ((hiff (key x)).mpr hm)), List.append_cons]
        refine keepFirstByKey_foldl key rest (key x :: seen) (acc ++ [x]) ?_
        intro k
        simp only [List.mem_cons, List.map_append, List.mem_append, List.map_cons,
          List.map_nil, List.mem_singleton, hiff k]
        tauto

theorem keepFirstByKey_eq_self {α κ : Type} [DecidableEq κ] (key : α → κ) :
    ∀ (l : List α) (seen : List κ), (l.map key).Nodup →
      (∀ x ∈ l, key x ∉ seen) → keepFirstByKey key seen l = l
  | [], _, _, _ => rfl
  | x :: rest, seen, hnd, hns => by
      unfold keepFirstByKey
      rw [if_neg (hns x (List.mem_cons_self _ _))]
      congr 1
      refine keepFirstByKey_eq_self key rest (key x :: seen)
        ((List.nodup_cons.mp (by simpa using hnd)).2) ?_
      intro y hy
      simp only [List.mem_cons]
      rintro (he | hs)
      · exact (List.nodup_cons.mp (by simpa using hnd)).1 (he ▸ List.mem_map_of_mem key hy)
      · exact hns y (List.mem_cons_of_mem _ hy) hs

theorem flatMap_filter_eq {α β : Type} (g : α → List β) (f : β → Bool) :
    ∀ l : List α, l.flatMap (fun a => (g a).filter f) = (l.flatMap g).filter f
  | [] => rfl
  | a :: rest => by
      simp only [List.flatMap_cons, List.filter_append, flatMap_filter_eq g f rest]

theorem searchGo_append (fetch : String → Except String (List RawPostData)) :
    ∀ (subs : List String) (acc : List RedditPost),
      searchGo fetch acc subs = acc ++ spec_searchResult fetch subs
  | [], acc => by simp [searchGo, spec_searchResult]
  | sr :: rest, acc => by
      cases h : fetch sr with
      | ok children =>
          simp [searchGo, spec_searchResult, h, searchGo_append fetch rest,
            List.flatMap_cons, List.append_assoc]
      | error e =>
          simp [searchGo, spec_searchResult, h, searchGo_append fetch rest,
            List.flatMap_cons]

/-! ## Claim theorems -/

/-- C4: `getBackoffDelay` is the pure function
`attempt ↦ min(baseDelay × multiplier^attempt, maxBackoff)` with
`baseDelay = 1000`; for a multiplier ≥ 1 it is non-decreasing in the
attempt, it never exceeds `maxBackoffMs`, and for a cap of at least 1000 ms
the delay at attempt 0 is the base delay (1000 ms). -/
theorem getBackoffDelay_spec (cfg : RateLimitConfig)
    (hmul : 1 ≤ cfg.backoffMultiplier) (hcap : 1000 ≤ cfg.maxBackoffMs) :
    (∀ n, getBackoffDelay cfg n =
        min (1000 * cfg.backoffMultiplier ^ n) cfg.maxBackoffMs) ∧
    (∀ m n, m ≤ n → getBackoffDelay cfg m ≤ getBackoffDelay cfg n) ∧
    (∀ n, getBackoffDelay cfg n ≤ cfg.maxBackoffMs) ∧
    getBackoffDelay cfg 0 = 1000 := by
  refine ⟨fun n => rfl, ?_, fun n => min_le_right _ _, ?_⟩
  · intro m n hmn
    unfold getBackoffDelay
    refine min_le_min ?_ le_rfl
    exact mul_le_mul_of_nonneg_left (pow_le_pow_right₀ hmul hmn) (by norm_num)
  · simp [getBackoffDelay, min_eq_left hcap]

/-- C4 witness: the default configuration satisfies the hypotheses, and the
delay at attempt 0 evaluates to the base delay. -/
theorem getBackoffDelay_spec_witness :
    ((1:ℚ) ≤ DEFAULT_RATE_LIMIT_CONFIG.backoffMultiplier ∧
      (1000:ℚ) ≤ DEFAULT_RATE_LIMIT_CONFIG.maxBackoffMs) ∧
    getBackoffDelay DEFAULT_RATE_LIMIT_CONFIG 0 = 1000 :=
  ⟨⟨by norm_num [DEFAULT_RATE_LIMIT_CONFIG], by norm_num [DEFAULT_RATE_LIMIT_CONFIG]⟩,
    (getBackoffDelay_spec DEFAULT_RATE_LIMIT_CONFIG
      (by norm_num [DEFAULT_RATE_LIMIT_CONFIG])
      (by norm_num [DEFAULT_RATE_LIMIT_CONFIG])).2.2.2⟩

/-- C5: `search` has partial-failure semantics: a failure while searching
one channel is caught and not propagated, the remaining channels are still
searched, and the result is exactly the concatenation, in input channel
order, of the decoded posts of the channels that succeeded. -/
theorem search_partial_failure (fetch : String → Except String (List RawPostData))
    (subreddits : List String) :
    search fetch subreddits = spec_searchResult fetch subreddits := by
  simpa using searchGo_append fetch subreddits []

/-- C6: `deduplicatePosts` is a stable first-occurrence filter: the output
is a sublist of the input (order preserved), its ids are pairwise distinct,
every input id is represented, the output is exactly the left fold that
keeps the first occurrence per id, and on ids `[a, b, a, c]` the output ids
are exactly `[a, b, c]`. -/
theorem deduplicatePosts_spec (posts : List RedditPost) :
    (deduplicatePosts posts).Sublist posts ∧
    ((deduplicatePosts posts).map (fun p => p.id)).Nodup ∧
    (∀ p ∈ posts, p.id ∈ (deduplicatePosts posts).map (fun p => p.id)) ∧
    deduplicatePosts posts = firstOccurrences posts ∧
    (deduplicatePosts
        [⟨"a", "reddit", "t1", "c1", "u1", "url1", 0, 0, 0⟩,
         ⟨"b", "reddit", "t2", "c2", "u2", "url2", 0, 0, 0⟩,
         ⟨"a", "reddit", "t3", "c3", "u3", "url3", 0, 0, 0⟩,
         ⟨"c", "reddit", "t4", "c4", "u4", "url4", 0, 0, 0⟩]).map (fun p => p.id) =
      ["a", "b", "c"] := by
  refine ⟨keepFirstByKey_sublist _ posts [],
    (keepFirstByKey_nodup _ posts []).1, ?_, ?_, by rfl⟩
  · intro p hp
    rcases keepFirstByKey_covers (fun p : RedditPost => p.id) posts [] p hp with hs | hm
    · exact absurd hs (List.not_mem_nil _)
    · exact hm
  · simpa [deduplicatePosts, firstOccurrences] using
      keepFirstByKey_foldl (fun p : RedditPost => p.id) posts [] [] (by simp)

/-- C8: keyword-to-lead matching is computed against the entire
product-keyword taxonomy: `findMatchedKeywords` returns exactly the
keywords, across all products, whose lower-cased form is a substring of the
lower-cased title-and-content text, with duplicates removed. -/
theorem findMatchedKeywords_full_taxonomy (post : RedditPost) :
    findMatchedKeywords post =
      allProductKeywords.filter
        (fun k => strIncludes (jsLower (post.title ++ " " ++ post.content)) (jsLower k)) ∧
    (findMatchedKeywords post).Nodup ∧
    ∀ k, k ∈ findMatchedKeywords post ↔
      (k ∈ allProductKeywords ∧
        strIncludes (jsLower (post.title ++ " " ++ post.content)) (jsLower k) = true) := by
  have hall : allProductKeywords.Nodup := by decide
  have hfilter : (allProductKeywords.filter
      (fun k => strIncludes (jsLower (post.title ++ " " ++ post.content)) (jsLower k))).Nodup :=
    hall.filter _
  have heq : findMatchedKeywords post =
      allProductKeywords.filter
        (fun k => strIncludes (jsLower (post.title ++ " " ++ post.content)) (jsLower k)) := by
    unfold findMatchedKeywords allProductKeywords
    dsimp only
    rw [flatMap_filter_eq]
    exact keepFirstByKey_eq_self (fun k => k) _ []
      (by simpa using hfilter) (by simp)
  refine ⟨heq, heq ▸ hfilter, ?_⟩
  intro k
  rw [heq, List.mem_filter]

/-- C1 counterexample: with the default limiter and a task that is
throttled on its first four calls and would succeed on the fifth, the
executor stops after 4 attempts and throws the throttling error without
ever reaching the success: throttled retries consume loop iterations, so
the number of attempts IS bounded by `maxRetries + 1` even when every
failure is a `RateLimitError`. -/
theorem withRateLimit_throttled_bounded_counterexample :
    (withRateLimit DEFAULT_RATE_LIMIT_CONFIG
        (fun i => if i < 4 then Outcome.throttled "Rate limited by Reddit" (some 1)
                  else Outcome.success (42 : ℕ))).result =
      Except.error "Rate limited by Reddit" ∧
    (withRateLimit DEFAULT_RATE_LIMIT_CONFIG
        (fun i => if i < 4 then Outcome.throttled "Rate limited by Reddit" (some 1)
                  else Outcome.success (42 : ℕ))).attempts = 4 :=
  ⟨rfl, rfl⟩

/-- C1 (amended): when an attempt fails with a `RateLimitError`, the
executor calls `handleRateLimitResponse` with that error's retry-after hint
and retries without consulting `shouldRetry` (no backoff entries, for every
limiter configuration, even one with `maxRetries = 0`); but each throttled
retry consumes a loop iteration, so when every failure is a
`RateLimitError` the executor makes exactly
`DEFAULT_RATE_LIMIT_CONFIG.maxRetries + 1` attempts and then throws the
last throttling error. -/
theorem withRateLimit_allThrottled (T : Type) (cfg : RateLimitConfig)
    (msgs : ℕ → String) (ras : ℕ → Option ℚ) :
    (withRateLimit cfg
        (fun i => (Outcome.throttled (msgs i) (ras i) : Outcome T))).throttleWaits =
      [ras 0, ras 1, ras 2, ras 3] ∧
    (withRateLimit cfg
        (fun i => (Outcome.throttled (msgs i) (ras i) : Outcome T))).backoffs = [] ∧
    (withRateLimit cfg
        (fun i => (Outcome.throttled (msgs i) (ras i) : Outcome T))).attempts =
      DEFAULT_RATE_LIMIT_CONFIG.maxRetries + 1 ∧
    (withRateLimit cfg
        (fun i => (Outcome.throttled (msgs i) (ras i) : Outcome T))).result =
      Except.error (msgs 3) :=
  ⟨rfl, rfl, rfl, rfl⟩

/-- C10: the executor's attempt loop is bounded by the module-level
`DEFAULT_RATE_LIMIT_CONFIG.maxRetries` (3), not by the limiter's own
`maxRetries`, while the per-attempt retry decision (`shouldRetry`) uses the
limiter's own configuration: every run makes at most 4 attempts, and a
limiter configured with a larger `maxRetries` facing persistent transient
failures still backs off at each of its 4 attempts (its own `shouldRetry`
grants every retry) and then throws the last error after exactly
`DEFAULT_RATE_LIMIT_CONFIG.maxRetries + 1` attempts. -/
theorem withRateLimit_default_bound (T : Type) (cfg : RateLimitConfig)
    (hgt : DEFAULT_RATE_LIMIT_CONFIG.maxRetries < cfg.maxRetries) (msgs : ℕ → String) :
    (∀ results : ℕ → Outcome T,
      (withRateLimit cfg results).attempts ≤ DEFAULT_RATE_LIMIT_CONFIG.maxRetries + 1) ∧
    (withRateLimit cfg (fun i => (Outcome.failure (msgs i) : Outcome T))).attempts =
      DEFAULT_RATE_LIMIT_CONFIG.maxRetries + 1 ∧
    (withRateLimit cfg (fun i => (Outcome.failure (msgs i) : Outcome T))).backoffs =
      [(0, getBackoffDelay cfg 0), (1, getBackoffDelay cfg 1),
       (2, getBackoffDelay cfg 2), (3, getBackoffDelay cfg 3)] ∧
    (withRateLimit cfg (fun i => (Outcome.failure (msgs i) : Outcome T))).result =
      Except.error (msgs 3) := by
  have hgt3 : 3 < cfg.maxRetries := hgt
  have hs : ∀ i, i ≤ 3 → shouldRetry cfg i = true := by
    intro i hi
    simp only [shouldRetry, decide_eq_true_eq]
    omega
  have hbound : ∀ (results : ℕ → Outcome T) (fuel att : ℕ) (le : Option String),
      (withRateLimitGo cfg results le att fuel).attempts ≤ fuel := by
    intro results fuel
    induction fuel with
    | zero => intro att le; simp [withRateLimitGo]
    | succ n ih =>
        intro att le
        simp only [withRateLimitGo]
        cases results att with
        | success t => simp
        | throttled m r => simpa using Nat.succ_le_succ (ih (att + 1) (some m))
        | failure m =>
            by_cases h : shouldRetry cfg att = true
            · simpa [h] using Nat.succ_le_succ (ih (att + 1) (some m))
            · simp [h]
  refine ⟨fun results => hbound results _ 0 none, ?_⟩
  refine ⟨?_, ?_, ?_⟩ <;>
    simp [withRateLimit, withRateLimitGo, DEFAULT_RATE_LIMIT_CONFIG,
      hs 0 (by omega), hs 1 (by omega), hs 2 (by omega), hs 3 (by omega)]

/-- C10 witness: a limiter configured with `maxRetries = 10` (greater than
the default 3) satisfies the hypothesis, and a persistently failing task
still makes only 4 attempts. -/
theorem withRateLimit_default_bound_witness :
    DEFAULT_RATE_LIMIT_CONFIG.maxRetries <
      ({ DEFAULT_RATE_LIMIT_CONFIG with maxRetries := 10 } : RateLimitConfig).maxRetries ∧
    (withRateLimit { DEFAULT_RATE_LIMIT_CONFIG with maxRetries := 10 }
        (fun _ => (Outcome.failure "boom" : Outcome ℕ))).attempts =
      DEFAULT_RATE_LIMIT_CONFIG.maxRetries + 1 :=
  ⟨by decide,
    (withRateLimit_default_bound ℕ { DEFAULT_RATE_LIMIT_CONFIG with maxRetries := 10 }
      (by decide) (fun _ => "boom")).2.1⟩

/-- C7 counterexample: a lead whose title starts with whitespace followed
by "how" (no intent keyword, no question mark, title longer than 30
characters).  The claimed predicate (which trims before the starts-with
tests) accepts it, but the source predicate tests `startsWith` on the
untrimmed text and rejects it. -/
theorem hasGenuineIntent_trim_counterexample :
    spec_hasGenuineIntent
        ⟨"reddit_x1", "reddit", "x1", "https://reddit.com/x1",
          " how to capture webpage thumbnails in bulk", "", "u1",
          "https://reddit.com/u/u1", [], 0, 0⟩ = true ∧
    hasGenuineIntent
        ⟨"reddit_x1", "reddit", "x1", "https://reddit.com/x1",
          " how to capture webpage thumbnails in bulk", "", "u1",
          "https://reddit.com/u/u1", [], 0, 0⟩ = false := by
  constructor <;> decide

/-- C7 (amended): `hasGenuineIntent` equals
`(hasIntentKeyword(text) OR looksLikeQuestion(text)) AND hasSubstance(lead)`
where `looksLikeQuestion` holds iff the text contains a question mark or
starts — WITHOUT trimming — with one of "how", "what", "which", "any"
case-insensitively, `hasIntentKeyword` is the case-insensitive substring
match against the fixed intent-phrase set, and `hasSubstance` holds iff
content length > 50 or title length > 30. -/
theorem hasGenuineIntent_no_trim (lead : StoredLead) :
    hasGenuineIntent lead = amended_hasGenuineIntent lead := by
  simp only [hasGenuineIntent, amended_hasGenuineIntent, spec_hasIntentKeyword,
    amended_looksLikeQuestion, spec_hasSubstance, INTENT_KEYWORDS, QUESTION_STARTS,
    List.any_cons, List.any_nil, Bool.or_false, Bool.or_assoc]
  rfl

/-- C9 counterexample: with a client id and client secret present but no
user-agent variable, `createRedditClient` does not raise a configuration
error — it succeeds, substituting the built-in default user agent. -/
theorem createRedditClient_missing_userAgent_ok :
    createRedditClient ⟨some "id", some "secret", none⟩ =
      Except.ok ⟨"id", "secret", DEFAULT_USER_AGENT⟩ ∧
    (createRedditClient ⟨some "id", some "secret", none⟩).isOk = true :=
  ⟨rfl, rfl⟩

/-- C9 (amended): client construction from the environment validates only
the client id and the client secret: if either is absent or empty the
construction raises the immediate configuration error (before any
request), and otherwise it succeeds — a missing or empty user-agent string
never raises and instead falls back to the built-in default user agent. -/
theorem createRedditClient_validation (env : RedditEnv) :
    ((jsFalsy env.REDDIT_CLIENT_ID || jsFalsy env.REDDIT_CLIENT_SECRET) = true →
      createRedditClient env =
        Except.error
          "Missing REDDIT_CLIENT_ID or REDDIT_CLIENT_SECRET environment variables") ∧
    ((jsFalsy env.REDDIT_CLIENT_ID || jsFalsy env.REDDIT_CLIENT_SECRET) = false →
      createRedditClient env =
        Except.ok
          ⟨env.REDDIT_CLIENT_ID.getD "", env.REDDIT_CLIENT_SECRET.getD "",
            match env.REDDIT_USER_AGENT with
            | some ua => if ua.isEmpty then DEFAULT_USER_AGENT else ua
            | none => DEFAULT_USER_AGENT⟩) := by
  constructor
  · intro h
    simp [createRedditClient, h]
  · intro h
    simp [createRedditClient, h, DEFAULT_USER_AGENT]

/-- C9 witness: a concrete environment with a missing client id hits the
error branch, and one with both credentials present but no user agent hits
the success branch of the amended theorem. -/
theorem createRedditClient_validation_witness :
    (jsFalsy (RedditEnv.mk none (some "secret") (some "ua")).REDDIT_CLIENT_ID ||
      jsFalsy (RedditEnv.mk none (some "secret") (some "ua")).REDDIT_CLIENT_SECRET) = true ∧
    createRedditClient ⟨none, some "secret", some "ua"⟩ =
      Except.error
        "Missing REDDIT_CLIENT_ID or REDDIT_CLIENT_SECRET environment variables" :=
  ⟨by decide,
    (createRedditClient_validation ⟨none, some "secret", some "ua"⟩).1 (by decide)⟩

theorem refillTokens_inv (cfg : RateLimitConfig) (s : LimiterState) (now : ℚ)
    (hrpm : 0 ≤ cfg.requestsPerMinute) (hb : 0 ≤ cfg.burstLimit)
    (h0 : 0 ≤ s.tokens) (hle : s.lastRefill ≤ now) :
    0 ≤ (refillTokens cfg s now).tokens ∧
      (refillTokens cfg s now).tokens ≤ cfg.burstLimit := by
  simp only [refillTokens]
  have hnn : 0 ≤ (now - s.lastRefill) / 60000 * cfg.requestsPerMinute :=
    mul_nonneg (div_nonneg (sub_nonneg.mpr hle) (by norm_num)) hrpm
  exact ⟨le_min hb (by linarith), min_le_left _ _⟩

theorem refillTokens_tokens (cfg : RateLimitConfig) (s : LimiterState) (now : ℚ) :
    (refillTokens cfg s now).tokens =
      min cfg.burstLimit
        (s.tokens + (now - s.lastRefill) / 60000 * cfg.requestsPerMinute) := rfl

theorem waitForToken_inv (cfg : RateLimitConfig) (s : LimiterState) (now1 now2 : ℚ)
    (hrpm : 0 < cfg.requestsPerMinute) (hburst : 1 ≤ cfg.burstLimit)
    (h0 : 0 ≤ s.tokens) (hle : s.lastRefill ≤ now1)
    (hw : ¬(1 ≤ (refillTokens cfg s now1).tokens) →
      now1 + ((msToWait cfg (refillTokens cfg s now1).tokens : ℤ) : ℚ) ≤ now2) :
    0 ≤ (waitForToken cfg s now1 now2).tokens ∧
      (waitForToken cfg s now1 now2).tokens ≤ cfg.burstLimit := by
  have hb0 : (0:ℚ) ≤ cfg.burstLimit := le_trans zero_le_one hburst
  obtain ⟨h1l, h1u⟩ := refillTokens_inv cfg s now1 hrpm.le hb0 h0 hle
  by_cases hfast : 1 ≤ (refillTokens cfg s now1).tokens
  · unfold waitForToken
    simp only [if_pos hfast]
    constructor <;> linarith
  · unfold waitForToken
    simp only [if_neg hfast]
    have hwait := hw hfast
    have hceil : (1 - (refillTokens cfg s now1).tokens) / cfg.requestsPerMinute * 60000 ≤
        ((msToWait cfg (refillTokens cfg s now1).tokens : ℤ) : ℚ) := Int.le_ceil _
    have hlast : (refillTokens cfg s now1).lastRefill = now1 := rfl
    have h2 : (1 - (refillTokens cfg s now1).tokens) / cfg.requestsPerMinute * 60000 ≤
        now2 - now1 := by linarith
    have h3 : (1 - (refillTokens cfg s now1).tokens) / cfg.requestsPerMinute * 60000 / 60000 ≤
        (now2 - now1) / 60000 :=
      (div_le_div_iff_of_pos_right (by norm_num)).mpr h2
    have h4 : (1 - (refillTokens cfg s now1).tokens) / cfg.requestsPerMinute * 60000 / 60000 *
          cfg.requestsPerMinute ≤
        (now2 - now1) / 60000 * cfg.requestsPerMinute :=
      mul_le_mul_of_nonneg_right h3 hrpm.le
    have h5 : (1 - (refillTokens cfg s now1).tokens) / cfg.requestsPerMinute * 60000 / 60000 *
          cfg.requestsPerMinute = 1 - (refillTokens cfg s now1).tokens := by
      field_simp
      ring
    have h6 : 1 ≤ (refillTokens cfg s now1).tokens +
        (now2 - now1) / 60000 * cfg.requestsPerMinute := by linarith
    have key : 1 ≤ (refillTokens cfg (refillTokens cfg s now1) now2).tokens := by
      rw [refillTokens_tokens, hlast]
      exact le_min hburst h6
    have hub2 : (refillTokens cfg (refillTokens cfg s now1) now2).tokens ≤ cfg.burstLimit := by
      rw [refillTokens_tokens]
      exact min_le_left _ _
    constructor
    · show 0 ≤ (refillTokens cfg (refillTokens cfg s now1) now2).tokens - 1
      linarith
    · show (refillTokens cfg (refillTokens cfg s now1) now2).tokens - 1 ≤ cfg.burstLimit
      linarith

theorem applyOp_inv (cfg : RateLimitConfig)
    (hrpm : 0 < cfg.requestsPerMinute) (hburst : 1 ≤ cfg.burstLimit)
    (s : LimiterState) (op : LimiterOp)
    (h0 : 0 ≤ s.tokens) (h1 : s.tokens ≤ cfg.burstLimit)
    (hwf : opWF cfg s op = true) :
    0 ≤ (applyOp cfg s op).tokens ∧ (applyOp cfg s op).tokens ≤ cfg.burstLimit := by
  have hb0 : (0:ℚ) ≤ cfg.burstLimit := le_trans zero_le_one hburst
  cases op with
  | wait now1 now2 =>
      simp only [opWF, Bool.and_eq_true, decide_eq_true_eq] at hwf
      obtain ⟨hle, hcond⟩ := hwf
      refine waitForToken_inv cfg s now1 now2 hrpm hburst h0 hle ?_
      intro hslow
      rw [if_neg hslow] at hcond
      exact of_decide_eq_true hcond
  | throttle =>
      exact ⟨le_refl 0, hb0⟩
  | status now =>
      simp only [opWF, decide_eq_true_eq] at hwf
      exact refillTokens_inv cfg s now hrpm.le hb0 h0 hwf
  | refill now =>
      simp only [opWF, decide_eq_true_eq] at hwf
      exact refillTokens_inv cfg s now hrpm.le hb0 h0 hwf

theorem runOps_inv (cfg : RateLimitConfig)
    (hrpm : 0 < cfg.requestsPerMinute) (hburst : 1 ≤ cfg.burstLimit) :
    ∀ (ops : List LimiterOp) (s : LimiterState),
      0 ≤ s.tokens → s.tokens ≤ cfg.burstLimit → opsWF cfg s ops = true →
      0 ≤ (runOps cfg s ops).tokens ∧ (runOps cfg s ops).tokens ≤ cfg.burstLimit
  | [], s, h0, h1, _ => ⟨h0, h1⟩
  | op :: rest, s, h0, h1, hwf => by
      simp only [opsWF, Bool.and_eq_true] at hwf
      obtain ⟨hop, hrest⟩ := hwf
      obtain ⟨h0a, h1a⟩ := applyOp_inv cfg hrpm hburst s op h0 h1 hop
      exact runOps_inv cfg hrpm hburst rest (applyOp cfg s op) h0a h1a hrest

/-- C2: the token-bucket state invariant 0 ≤ tokens ≤ burstLimit holds at
every observation point: starting from the initial state
(tokens = burstLimit), for every well-formed sequence of operations
(waitForToken, handleRateLimitResponse, getStatus, refill) at any
timestamps compatible with a monotone clock and sleeps that never wake
early, the token count never goes negative and never exceeds the
configured burst capacity — for a positive refill rate and a burst
capacity of at least one token, as in the shipped configuration. -/
theorem tokenBucket_invariant (cfg : RateLimitConfig)
    (hrpm : 0 < cfg.requestsPerMinute) (hburst : 1 ≤ cfg.burstLimit)
    (t0 : ℚ) (ops : List LimiterOp)
    (hwf : opsWF cfg (initLimiter cfg t0) ops = true) :
    0 ≤ (runOps cfg (initLimiter cfg t0) ops).tokens ∧
      (runOps cfg (initLimiter cfg t0) ops).tokens ≤ cfg.burstLimit :=
  runOps_inv cfg hrpm hburst ops (initLimiter cfg t0)
    (le_trans zero_le_one hburst) (le_refl cfg.burstLimit) hwf

/-- C2 witness: the default configuration and a concrete well-formed trace
exercising a throttle reset, a slow-path wait (with its enforced
2000 ms sleep), a refill, a status read, and a fast-path wait. -/
theorem tokenBucket_invariant_witness :
    (0 < DEFAULT_RATE_LIMIT_CONFIG.requestsPerMinute ∧
      1 ≤ DEFAULT_RATE_LIMIT_CONFIG.burstLimit ∧
      opsWF DEFAULT_RATE_LIMIT_CONFIG (initLimiter DEFAULT_RATE_LIMIT_CONFIG 0)
        [.throttle, .wait 0 2000, .refill 300000, .status 300000,
         .wait 300000 300000] = true) ∧
    (0 ≤ (runOps DEFAULT_RATE_LIMIT_CONFIG (initLimiter DEFAULT_RATE_LIMIT_CONFIG 0)
        [.throttle, .wait 0 2000, .refill 300000, .status 300000,
         .wait 300000 300000]).tokens ∧
      (runOps DEFAULT_RATE_LIMIT_CONFIG (initLimiter DEFAULT_RATE_LIMIT_CONFIG 0)
        [.throttle, .wait 0 2000, .refill 300000, .status 300000,
         .wait 300000 300000]).tokens ≤ DEFAULT_RATE_LIMIT_CONFIG.burstLimit) :=
  ⟨⟨by norm_num [DEFAULT_RATE_LIMIT_CONFIG], by norm_num [DEFAULT_RATE_LIMIT_CONFIG],
      by norm_num [opsWF, opWF, applyOp, waitForToken, handleRateLimitResponse,
        getStatusState, refillTokens, msToWait, initLimiter, DEFAULT_RATE_LIMIT_CONFIG,
        min_def]⟩,
    tokenBucket_invariant DEFAULT_RATE_LIMIT_CONFIG
      (by norm_num [DEFAULT_RATE_LIMIT_CONFIG]) (by norm_num [DEFAULT_RATE_LIMIT_CONFIG]) 0
      [.throttle, .wait 0 2000, .refill 300000, .status 300000, .wait 300000 300000]
      (by norm_num [opsWF, opWF, applyOp, waitForToken, handleRateLimitResponse,
        getStatusState, refillTokens, msToWait, initLimiter, DEFAULT_RATE_LIMIT_CONFIG,
        min_def])⟩

/-- C3 counterexample: from the initial (reachable) state with a full
bucket, `handleRateLimitResponse` — an operation other than the consuming
step of `waitForToken` — strictly decreases the token count (from the
burst capacity 10 to 0). -/
theorem handleRateLimitResponse_decreases_tokens :
    (handleRateLimitResponse (initLimiter DEFAULT_RATE_LIMIT_CONFIG 0)).tokens <
      (initLimiter DEFAULT_RATE_LIMIT_CONFIG 0).tokens := by
  show (0:ℚ) < 10
  norm_num

/-- C3 (amended): apart from the consuming −1 steps of `waitForToken` and
apart from `handleRateLimitResponse` — which forces the token count to
exactly 0 — no operation of the rate limiter decreases the token count:
`refillTokens` and the state effect of `getStatus` are non-decreasing on
every within-capacity state under a monotone clock and a non-negative
refill rate. -/
theorem rateLimiter_nonconsuming_monotone (cfg : RateLimitConfig)
    (hrpm : 0 ≤ cfg.requestsPerMinute) (s : LimiterState) (now : ℚ)
    (hle : s.lastRefill ≤ now) (hub : s.tokens ≤ cfg.burstLimit) :
    s.tokens ≤ (refillTokens cfg s now).tokens ∧
    s.tokens ≤ (getStatusState cfg s now).tokens ∧
    (handleRateLimitResponse s).tokens = 0 := by
  have hnn : 0 ≤ (now - s.lastRefill) / 60000 * cfg.requestsPerMinute :=
    mul_nonneg (div_nonneg (sub_nonneg.mpr hle) (by norm_num)) hrpm
  have hre : s.tokens ≤ (refillTokens cfg s now).tokens := by
    rw [refillTokens_tokens]
    exact le_min hub (by linarith)
  exact ⟨hre, hre, rfl⟩

/-- C3 witness: the default configuration, the state with 5 tokens last
refilled at time 0, observed at time 60000: the refill does not decrease
the token count. -/
theorem rateLimiter_nonconsuming_monotone_witness :
    ((0:ℚ) ≤ DEFAULT_RATE_LIMIT_CONFIG.requestsPerMinute ∧
      (LimiterState.mk 5 0).lastRefill ≤ (60000:ℚ) ∧
      (LimiterState.mk 5 0).tokens ≤ DEFAULT_RATE_LIMIT_CONFIG.burstLimit) ∧
    (LimiterState.mk 5 0).tokens ≤
      (refillTokens DEFAULT_RATE_LIMIT_CONFIG (LimiterState.mk 5 0) 60000).tokens :=
  ⟨⟨by norm_num [DEFAULT_RATE_LIMIT_CONFIG], by norm_num,
      by norm_num [DEFAULT_RATE_LIMIT_CONFIG]⟩,
    (rateLimiter_nonconsuming_monotone DEFAULT_RATE_LIMIT_CONFIG
      (by norm_num [DEFAULT_RATE_LIMIT_CONFIG]) (LimiterState.mk 5 0) 60000
      (by norm_num) (by norm_num [DEFAULT_RATE_LIMIT_CONFIG])).1⟩
